import Mathlib

/-!
Formal model of `src/03-event-driven/library_notification.py`.

Conventions of the shallow embedding:
* Python `uuid.uuid4()` fresh-id generation is modelled by a monotone counter
  `nextId` carried in the state; what the code relies on is distinctness of the
  generated ids, which the counter provides.
* `datetime.now()` is modelled by an explicit integer timestamp (`now`, counted
  in seconds) passed to each operation; `timedelta(days=14)` is `14 * 86400`,
  and Python `timedelta.days` (floor of the day count of a positive delta) is
  integer division of the second count by `86400`.
* Python dicts preserve insertion order, so each service database is an
  association list; updating an existing key keeps its position (`setAssoc`).
* The only floats in the program are late fees, which are exact multiples of
  `0.50` dollars; money is therefore modelled exactly, in integer cents
  (`0.50` is `50`, `1.50` is `150`).
* Python `str.strip()` and `c in s` are `pyStrip` and `pyIn`, computed on the
  character list of the string.
* Functions that return status strings return the corresponding `String`;
  the single quote character of the messages is `sq`.
-/

namespace LibNotif

/-- The single quote character used inside the status messages. -/
def sq : String := (Char.ofNat 39).toString

/-- Python `c in s` on a string. -/
def pyIn (c : Char) (s : String) : Bool :=
  s.data.contains c

/-- Python `s.strip()`: drop leading and trailing whitespace. -/
def pyStrip (s : String) : String :=
  ⟨((s.data.dropWhile Char.isWhitespace).reverse.dropWhile Char.isWhitespace).reverse⟩

/-- Payload values stored in an event payload mapping. -/
inductive PVal where
  | str : String → PVal
  | nat : Nat → PVal
  | int : Int → PVal
deriving DecidableEq

/-- The event envelope built by `emit_event` (lines 86-93 of the source). -/
structure Event where
  event_id : Nat
  type : String
  payload : List (String × PVal)
  correlation_id : Nat
  timestamp : Int
  retry_count : Nat
deriving DecidableEq

/-- A record of `library_db["books"]`. -/
structure Book where
  isbn : String
  title : String
  author : String
  total_copies : Int
  available_copies : Int
  added_date : Int
deriving DecidableEq

/-- A record of `library_db["users"]`.  The suspension fields are only present
after `suspend_user`, hence `Option`. -/
structure User where
  email : String
  name : String
  user_type : String
  status : String
  registered_date : Int
  borrowing_limit : Nat
  suspension_reason : Option String
  suspended_date : Option Int
deriving DecidableEq

/-- A record of `library_db["borrowings"]`. -/
structure Borrowing where
  user_id : Nat
  book_id : Nat
  borrowed_date : Int
  due_date : Int
  returned_date : Option Int
  late_fee : Int
deriving DecidableEq

/-- `library_db` together with the broker queue the library operations emit
into, and the fresh-id counter. -/
structure LibState where
  books : List (Nat × Book)
  users : List (Nat × User)
  borrowings : List (Nat × Borrowing)
  queue : List Event
  nextId : Nat
deriving DecidableEq

/-- Dict lookup `d[k]` / `k in d`. -/
def alookup {β : Type} (l : List (Nat × β)) (k : Nat) : Option β :=
  (l.find? (fun p => p.1 == k)).map Prod.snd

/-- Dict lookup for string-keyed mappings such as payloads (`d.get(k)`). -/
def slookup {β : Type} (l : List (String × β)) (k : String) : Option β :=
  (l.find? (fun p => p.1 == k)).map Prod.snd

/-- Dict update `d[k] = v` of an existing key: the entry keeps its position. -/
def setAssoc {β : Type} (l : List (Nat × β)) (k : Nat) (v : β) : List (Nat × β) :=
  l.map (fun p => if p.1 == k then (k, v) else p)

/-- The keys of a dict, in insertion order. -/
def keysOf {β : Type} (l : List (Nat × β)) : List Nat :=
  l.map Prod.fst

/-- Whether a status string is one of the domain error returns: every error
return of the library service starts with `"Error"`. -/
def isErr (m : String) : Bool :=
  "Error".data.isPrefixOf m.data

/-- `emit_event` (source lines 78-95): build the envelope (fresh
`correlation_id` when the caller passes none — every library operation does —
and fresh `event_id`) and append it to the tail of the queue. -/
def emit_event (ty : String) (payload : List (String × PVal)) (now : Int)
    (s : LibState) : LibState :=
  { s with
    queue := s.queue ++
      [{ event_id := s.nextId + 1, type := ty, payload := payload,
         correlation_id := s.nextId, timestamp := now, retry_count := 0 }],
    nextId := s.nextId + 2 }

/-- `add_book_to_library` (source lines 156-197). -/
def add_book_to_library (isbn title author : String) (copies : Int) (now : Int)
    (s : LibState) : String × LibState :=
  if isbn = "" ∨ title = "" ∨ author = "" then
    ("Error: ISBN, title, and author are required", s)
  else if copies ≤ 0 then
    ("Error: Number of copies must be positive", s)
  else if s.books.any (fun p => p.2.isbn == isbn) then
    ("Error: Book with this ISBN already exists", s)
  else
    let book_id := s.nextId
    let book : Book :=
      { isbn := isbn, title := title, author := author, total_copies := copies,
        available_copies := copies, added_date := now }
    let s1 : LibState :=
      { s with books := s.books ++ [(book_id, book)], nextId := s.nextId + 1 }
    let s2 := emit_event "BookAdded"
      [("book_id", .nat book_id), ("isbn", .str isbn), ("title", .str title),
       ("author", .str author), ("copies", .int copies)] now s1
    ("Book " ++ (sq ++ title ++ sq ++ " added successfully with ID " ++
      toString book_id), s2)

/-- `register_user` (source lines 200-240).  Note: the stored record holds the
stripped name, the emitted payload and the status message hold the original
`name` argument; `borrowing_limit` is 5 exactly when `user_type = "premium"`,
and no other validation of `user_type` happens. -/
def register_user (email name user_type : String) (now : Int)
    (s : LibState) : String × LibState :=
  if email = "" ∨ ¬ (pyIn '@' email) then
    ("Error: Valid email address is required", s)
  else if name = "" ∨ pyStrip name = "" then
    ("Error: User name is required", s)
  else if s.users.any (fun p => p.2.email == email) then
    ("Error: User with this email already exists", s)
  else
    let user_id := s.nextId
    let user : User :=
      { email := email, name := pyStrip name, user_type := user_type,
        status := "active", registered_date := now,
        borrowing_limit := if user_type = "premium" then 5 else 3,
        suspension_reason := none, suspended_date := none }
    let s1 : LibState :=
      { s with users := s.users ++ [(user_id, user)], nextId := s.nextId + 1 }
    let s2 := emit_event "UserRegistered"
      [("user_id", .nat user_id), ("email", .str email), ("name", .str name),
       ("user_type", .str user_type)] now s1
    ("User " ++ (sq ++ name ++ sq ++ " registered successfully with ID " ++
      toString user_id), s2)

/-- The predicate of the `current_borrowings` list comprehension of
`borrow_book` (source lines 268-269): open borrowings of this user. -/
def isOpenOf (uid : Nat) (b : Borrowing) : Bool :=
  b.user_id == uid && b.returned_date.isNone

/-- `borrow_book` (source lines 243-309).  The validation order is exactly the
source's: user missing, user inactive, book missing, no copy available,
borrowing limit reached, book already held open by this user. -/
def borrow_book (user_id book_id : Nat) (now : Int)
    (s : LibState) : String × LibState :=
  match alookup s.users user_id with
  | none => ("Error: User not found", s)
  | some user =>
    if user.status ≠ "active" then
      ("Error: User account is not active", s)
    else
      match alookup s.books book_id with
      | none => ("Error: Book not found", s)
      | some book =>
        if book.available_copies ≤ 0 then
          ("Error: Book is not available for borrowing", s)
        else
          let current := s.borrowings.filter (fun p => isOpenOf user_id p.2)
          if user.borrowing_limit ≤ current.length then
            ("Error: User has reached borrowing limit of " ++
              toString user.borrowing_limit ++ " books", s)
          else if current.any (fun p => p.2.book_id == book_id) then
            ("Error: User has already borrowed this book", s)
          else
            let borrowing_id := s.nextId
            let due_date := now + 14 * 86400
            let borrowing : Borrowing :=
              { user_id := user_id, book_id := book_id, borrowed_date := now,
                due_date := due_date, returned_date := none, late_fee := 0 }
            let s1 : LibState :=
              { s with
                borrowings := s.borrowings ++ [(borrowing_id, borrowing)],
                books := setAssoc s.books book_id
                  { book with available_copies := book.available_copies - 1 },
                nextId := s.nextId + 1 }
            let s2 := emit_event "BookBorrowed"
              [("user_id", .nat user_id), ("book_id", .nat book_id),
               ("book_title", .str book.title), ("borrowing_id", .nat borrowing_id),
               ("borrowed_date", .int now), ("due_date", .int due_date),
               ("user_name", .str user.name), ("user_email", .str user.email)]
              now s1
            ("Book " ++ (sq ++ book.title ++ sq ++ " borrowed successfully by " ++
              user.name), s2)

/-- The search loop of `return_book` (source lines 321-327): first stored open
borrowing of this user for this book. -/
def findOpenBorrowing (s : LibState) (uid bid : Nat) : Option (Nat × Borrowing) :=
  s.borrowings.find? (fun p =>
    p.2.user_id == uid && p.2.book_id == bid && p.2.returned_date.isNone)

/-- Python `days_late` of `return_book`: `(return_date - due_date).days` for a
positive delta. -/
def daysLate (now due : Int) : Nat :=
  (now - due).toNat / 86400

/-- Render a fee held in cents as the Python `f"{fee:.2f}"` does. -/
def feeString (c : Int) : String :=
  toString (c / 100) ++ "." ++
    (if c % 100 < 10 then "0" else "") ++ toString (c % 100)

/-- `return_book` (source lines 312-368).  The two raw dict accesses
`library_db["books"][book_id]` and `library_db["users"][user_id]` can raise
`KeyError` in Python; that fallible access is the `Except.error` case (it
happens before any mutation, and is unreachable from reachable states). -/
def return_book (user_id book_id : Nat) (now : Int)
    (s : LibState) : Except String (String × LibState) :=
  match findOpenBorrowing s user_id book_id with
  | none => .ok ("Error: Book not borrowed by this user", s)
  | some (borrowing_id, borrowing) =>
    match alookup s.books book_id, alookup s.users user_id with
    | some book, some user =>
      let late_fee : Int :=
        if borrowing.due_date < now then (daysLate now borrowing.due_date : Int) * 50
        else 0
      let s1 : LibState :=
        { s with
          borrowings := setAssoc s.borrowings borrowing_id
            { borrowing with returned_date := some now, late_fee := late_fee },
          books := setAssoc s.books book_id
            { book with available_copies := book.available_copies + 1 } }
      let s2 := emit_event "BookReturned"
        [("user_id", .nat user_id), ("book_id", .nat book_id),
         ("book_title", .str book.title), ("borrowing_id", .nat borrowing_id),
         ("returned_date", .int now), ("late_fee", .int late_fee),
         ("user_name", .str user.name), ("user_email", .str user.email)]
        now s1
      .ok ("Book " ++ (sq ++ book.title ++ sq ++ " returned successfully by " ++
            user.name ++
            (if 0 < late_fee then " (Late fee: $" ++ feeString late_fee ++ ")"
             else "")), s2)
    | _, _ => .error "KeyError"

/-- `suspend_user` (source lines 388-409). -/
def suspend_user (user_id : Nat) (reason : String) (now : Int)
    (s : LibState) : String × LibState :=
  match alookup s.users user_id with
  | none => ("Error: User not found", s)
  | some user =>
    let user1 : User :=
      { user with status := "suspended", suspension_reason := some reason,
                  suspended_date := some now }
    let s1 : LibState := { s with users := setAssoc s.users user_id user1 }
    let s2 := emit_event "UserSuspended"
      [("user_id", .nat user_id), ("reason", .str reason),
       ("suspended_date", .int now), ("user_name", .str user.name),
       ("user_email", .str user.email)] now s1
    ("User " ++ (sq ++ user.name ++ sq ++ " suspended: " ++ reason), s2)

/-- One call of a library service operation, with the ambient clock reading. -/
inductive Cmd where
  | addBook (isbn title author : String) (copies : Int) (now : Int)
  | registerUser (email name utype : String) (now : Int)
  | borrowBook (uid bid : Nat) (now : Int)
  | returnBook (uid bid : Nat) (now : Int)
  | suspendUser (uid : Nat) (reason : String) (now : Int)
deriving DecidableEq

/-- Run one command.  A `KeyError` escaping `return_book` aborts before any
mutation, so the state is the unchanged one. -/
def runCmd (c : Cmd) (s : LibState) : String × LibState :=
  match c with
  | .addBook isbn title author copies now => add_book_to_library isbn title author copies now s
  | .registerUser email name ut now => register_user email name ut now s
  | .borrowBook uid bid now => borrow_book uid bid now s
  | .returnBook uid bid now =>
    match return_book uid bid now s with
    | .ok r => r
    | .error e => (e, s)
  | .suspendUser uid reason now => suspend_user uid reason now s

/-- Run a sequence of library service calls. -/
def runCmds (cs : List Cmd) (s : LibState) : LibState :=
  match cs with
  | [] => s
  | c :: rest => runCmds rest (runCmd c s).2

/-- The empty system state (all databases empty, broker queue empty). -/
def initState : LibState :=
  { books := [], users := [], borrowings := [], queue := [], nextId := 0 }

/-- Number of open borrowings of the book with key `bid`. -/
def obCount (l : List (Nat × Borrowing)) (bid : Nat) : Nat :=
  l.countP (fun p => p.2.book_id == bid && p.2.returned_date.isNone)

/-! ## Message broker (source lines 61-150)

Handlers are Python function objects; here a handler is an opaque identifier
`Nat`, and a behaviour oracle `Beh` gives, for a handler id and the event it
is invoked on, the observable outcome of the call: `Except.error msg` when the
handler raises (the message is Python `str(e)`), `Except.ok emitted` when it
returns after emitting `emitted` through the broker.  The source passes the
payload alone to ordinary handlers and payload plus
timestamp/correlation_id/event_id metadata to the audit service; both argument
lists are projections of the full envelope, so the oracle receives the whole
`Event`. -/

/-- One entry of `event_handlers[event_type]` (source lines 72-75). -/
structure HandlerInfo where
  handler : Nat
  service : String
deriving DecidableEq

/-- The `event_handlers` dict: event type → registration list. -/
abbrev HandlerTable := List (String × List HandlerInfo)

/-- `event_handlers.get(ty, [])`. -/
def handlersFor (t : HandlerTable) (ty : String) : List HandlerInfo :=
  match t.find? (fun p => p.1 == ty) with
  | some p => p.2
  | none => []

/-- `register_event_handler` (source lines 64-75): create the per-type list if
absent, then append. -/
def register_event_handler (ty : String) (h : Nat) (service : String)
    (t : HandlerTable) : HandlerTable :=
  if t.any (fun p => p.1 == ty) then
    t.map (fun p => if p.1 == ty then (p.1, p.2 ++ [⟨h, service⟩]) else p)
  else
    t ++ [(ty, [⟨h, service⟩])]

/-- One `register_event_handler(type, handler, service)` call. -/
structure Reg where
  type : String
  handler : Nat
  service : String
deriving DecidableEq

/-- The table built by a sequence of `register_event_handler` calls starting
from an empty `event_handlers` dict. -/
def applyRegs (regs : List Reg) : HandlerTable :=
  regs.foldl (fun t r => register_event_handler r.type r.handler r.service t) []

/-- The observable outcome of one handler invocation. -/
abbrev Beh := Nat → Event → Except String (List Event)

/-- A record of `failed_events` (source lines 127-132). -/
structure FailedEvent where
  original_event : Event
  error : String
  failed_at : Int
  handler_service : String
deriving DecidableEq

/-- The broker state touched by `process_events`: the event queue, the failure
log, and the ambient clock read by `datetime.now()` (advanced after each
reading so that later readings are later). -/
structure BrokerSt where
  queue : List Event
  failed : List FailedEvent
  clock : Int
deriving DecidableEq

/-- The `try`/`except` body of the dispatch loop (source lines 113-133): call
the handler; on an exception append a `FailedEvent`, otherwise the handler's
emissions have been appended to the queue.  Nothing propagates to the caller
in either case. -/
def invokeHandler (beh : Beh) (h : HandlerInfo) (e : Event) (st : BrokerSt) :
    BrokerSt :=
  match beh h.handler e with
  | .ok emitted => { st with queue := st.queue ++ emitted }
  | .error msg =>
    { st with
      failed := st.failed ++
        [{ original_event := e, error := msg, failed_at := st.clock,
           handler_service := h.service }],
      clock := st.clock + 1 }

/-- The inner `for handler_info in event_handlers[event_type]` loop of
`process_events` (source lines 112-133), also returning the invocation trace:
which handler was invoked on which event, in order. -/
def runHandlers (beh : Beh) (e : Event) :
    List HandlerInfo → BrokerSt → BrokerSt × List (Event × HandlerInfo)
  | [], st => (st, [])
  | h :: rest, st =>
    let st1 := invokeHandler beh h e st
    let p := runHandlers beh e rest st1
    (p.1, (e, h) :: p.2)

/-- `process_events` (source lines 98-133).  The `fuel` argument is the number
of loop iterations still allowed: a call `process_events(max_events = n)`
performs at most `n` iterations, which is exactly `fuel = n`; the unbounded
call `process_events()` is any `fuel` large enough to drain the queue (when
the invoked handlers emit nothing, `fuel ≥ queue.length` suffices).  Each
iteration pops the head event and invokes every handler registered for its
type; an event of an unregistered type is silently consumed. -/
def process_events (beh : Beh) (t : HandlerTable) :
    Nat → BrokerSt → BrokerSt × List (Event × HandlerInfo)
  | 0, st => (st, [])
  | fuel + 1, st =>
    match st.queue with
    | [] => (st, [])
    | e :: rest =>
      let p1 := runHandlers beh e (handlersFor t e.type) { st with queue := rest }
      let p2 := process_events beh t fuel p1.1
      (p2.1, p1.2 ++ p2.2)

/-- `get_failed_events` (source lines 136-140) returns a copy of the log; in a
pure model the copy is the list itself. -/
def get_failed_events (st : BrokerSt) : List FailedEvent :=
  st.failed

/-- A `FailedEvent` without its wall-clock field. -/
def stripTime (f : FailedEvent) : Event × String × String :=
  (f.original_event, f.error, f.handler_service)

/-- The failure records (up to wall-clock time) that one event must contribute
to the failure log: one per registered handler whose invocation raises. -/
def expectedFailures (beh : Beh) (t : HandlerTable) (e : Event) :
    List (Event × String × String) :=
  (handlersFor t e.type).filterMap (fun h =>
    match beh h.handler e with
    | .ok _ => none
    | .error msg => some (e, msg, h.service))

/-! ## Heap model of `emit_event` payload copying (source line 89)

`payload.copy()` is Python's *shallow* dict copy.  To reason about what later
mutation of the caller's objects does to the queued event, references must be
explicit, so this sub-model gives payload values an explicit heap: a value is
an immutable scalar or a reference (heap address) to a mutable dict or list
object; the caller's payload argument is a reference to a dict object. -/

namespace Heap

/-- A Python value as stored in a slot: scalar, or reference to a mutable
object. -/
inductive PyV where
  | str : String → PyV
  | int : Int → PyV
  | ref : Nat → PyV
deriving DecidableEq

/-- A mutable heap object. -/
inductive PyObj where
  | dict : List (String × PyV) → PyObj
  | list : List PyV → PyObj
deriving DecidableEq

/-- The heap: address `r` holds `h.get? r`; allocation appends. -/
abbrev HeapT := List PyObj

/-- The event envelope of this sub-model; `payload` is the address of the dict
object built by `payload.copy()`. -/
structure HEvent where
  event_id : Nat
  type : String
  payload : Nat
  correlation_id : Nat
  timestamp : Int
deriving DecidableEq

/-- Broker-visible state: the heap, the queue, and the id counter. -/
structure HState where
  heap : HeapT
  queue : List HEvent
  nextId : Nat
deriving DecidableEq

/-- The entries of the dict object at address `r` (empty when `r` does not
hold a dict; `emit_event` is only ever called on a dict reference). -/
def dictEntries (h : HeapT) (r : Nat) : List (String × PyV) :=
  match h.get? r with
  | some (.dict es) => es
  | _ => []

/-- `emit_event(ty, payload)` in the heap model: `payload.copy()` allocates a
fresh dict object holding the same entry list — the entries themselves,
references included, are shared — and the envelope is appended to the queue
with the copy's address as its payload. -/
def emit_event (ty : String) (payloadRef : Nat) (now : Int) (st : HState) :
    HState :=
  let copyAddr := st.heap.length
  { heap := st.heap ++ [.dict (dictEntries st.heap payloadRef)],
    queue := st.queue ++
      [{ event_id := st.nextId + 1, type := ty, payload := copyAddr,
         correlation_id := st.nextId, timestamp := now }],
    nextId := st.nextId + 2 }

/-- Caller-side mutation `d[k] = v` on the dict object at `r`: a *top-level*
mutation of the mapping. -/
def dictSetKey (h : HeapT) (r : Nat) (k : String) (v : PyV) : HeapT :=
  match h.get? r with
  | some (.dict es) =>
    h.set r (.dict (if es.any (fun p => p.1 == k)
                    then es.map (fun p => if p.1 == k then (k, v) else p)
                    else es ++ [(k, v)]))
  | _ => h

/-- Caller-side mutation `xs.append(v)` on the list object at `r`: a mutation
of a *nested* value when `r` is reachable from a payload entry. -/
def listAppend (h : HeapT) (r : Nat) (v : PyV) : HeapT :=
  match h.get? r with
  | some (.list vs) => h.set r (.list (vs ++ [v]))
  | _ => h

/-- The data a value denotes once all references are followed, cut off at
`fuel` dereferences (`bottom` marks a dangling reference or exhausted fuel). -/
inductive DVal where
  | str : String → DVal
  | int : Int → DVal
  | dict : List (String × DVal) → DVal
  | list : List DVal → DVal
  | bottom : DVal

/-- Dereference a value down to its data, `fuel` levels deep. -/
def deepVal (h : HeapT) : Nat → PyV → DVal
  | _, .str s => .str s
  | _, .int i => .int i
  | 0, .ref _ => .bottom
  | fuel + 1, .ref r =>
    match h.get? r with
    | some (.dict es) => .dict (es.map (fun p => (p.1, deepVal h fuel p.2)))
    | some (.list vs) => .list (vs.map (deepVal h fuel))
    | none => .bottom

/-- The full data of the payload of the `i`-th queued event. -/
def queuedPayloadData (st : HState) (i : Nat) (fuel : Nat) : DVal :=
  match st.queue.get? i with
  | some e => deepVal st.heap fuel (.ref e.payload)
  | none => .bottom

end Heap

/-! ## Analytics service report and audit trail (source lines 594-618, 720-737)

Timestamps are ISO-format strings in the source, compared after
`datetime.fromisoformat`; ISO strings of one run order exactly like the
instants they denote, so timestamps stay integers here. -/

/-- A record of `analytics_db["events"]`. -/
structure AEvent where
  type : String
  timestamp : Int
  data : List (String × PVal)
deriving DecidableEq

/-- The part of `analytics_db` that `generate_usage_report` reads: the event
log and the `book_popularity` metric. -/
structure AnalyticsDB where
  events : List AEvent
  book_popularity : List (Nat × Nat)
deriving DecidableEq

/-- The report dict built by `generate_usage_report`. -/
structure UsageReport where
  period : String
  total_borrows : Nat
  total_returns : Nat
  active_users : Nat
  popular_books : List (Nat × Nat)
  generated_at : Int
deriving DecidableEq

/-- `generate_usage_report` (source lines 594-618): filter the event log to
the inclusive date range, count borrows and returns, count distinct user ids,
snapshot the popularity metric, and stamp the report with the current time. -/
def generate_usage_report (start_date end_date : Int) (db : AnalyticsDB)
    (now : Int) : UsageReport :=
  let filtered := db.events.filter
    (fun e => decide (start_date ≤ e.timestamp) && decide (e.timestamp ≤ end_date))
  { period := toString start_date ++ " to " ++ toString end_date,
    total_borrows := (filtered.filter (fun e => e.type == "book_borrowed")).length,
    total_returns := (filtered.filter (fun e => e.type == "book_returned")).length,
    active_users := ((filtered.filterMap (fun e => slookup e.data "user_id")).dedup).length,
    popular_books := db.book_popularity,
    generated_at := now }

/-- Every field of a usage report except the `generated_at` stamp. -/
def reportData (r : UsageReport) : String × Nat × Nat × Nat × List (Nat × Nat) :=
  (r.period, r.total_borrows, r.total_returns, r.active_users, r.popular_books)

/-- A record of `audit_db["events"]` (source lines 655-662). -/
structure AuditEvent where
  event_type : String
  payload : List (String × PVal)
  timestamp : Int
  correlation_id : Option Nat
  event_id : Option Nat
  audit_logged_at : Int
deriving DecidableEq

/-- The audit event log. -/
abbrev AuditDB := List AuditEvent

/-- Stable insertion into a list sorted by `timestamp`: the new element goes
after every element with a timestamp not greater than its own, which is how
Python's stable `list.sort(key=...)` keeps ties in encounter order. -/
def insertByTime (e : AuditEvent) : List AuditEvent → List AuditEvent
  | [] => [e]
  | x :: xs =>
    if x.timestamp ≤ e.timestamp then x :: insertByTime e xs else e :: x :: xs

/-- Python `trail.sort(key=lambda e: e["timestamp"])` (stable). -/
def sortByTime (l : List AuditEvent) : List AuditEvent :=
  l.foldl (fun acc e => insertByTime e acc) []

/-- `get_audit_trail` (source lines 720-737): keep the audit entries whose
payload references the entity (`user` → `user_id`, `book` → `book_id`), then
sort chronologically. -/
def get_audit_trail (entity_type : String) (entity_id : PVal) (db : AuditDB) :
    List AuditEvent :=
  let trail := db.filter (fun ev =>
    (entity_type == "user" && slookup ev.payload "user_id" == some entity_id) ||
    (entity_type == "book" && slookup ev.payload "book_id" == some entity_id))
  sortByTime trail

/-! ## Helper lemmas -/

lemma data_append (a b : String) : (a ++ b).data = a.data ++ b.data := by
  cases a; cases b; rfl

lemma isErr_book (r : String) : isErr ("Book " ++ r) = false := by
  unfold isErr
  rw [data_append]
  rfl

lemma isErr_user (r : String) : isErr ("User " ++ r) = false := by
  unfold isErr
  rw [data_append]
  rfl

/-- Every library operation either leaves the state untouched or returns a
status that is not a domain error: the source validates before it mutates. -/
lemma runCmd_err_frame (c : Cmd) (s : LibState) :
    (runCmd c s).2 = s ∨ isErr (runCmd c s).1 = false := by
  cases c with
  | addBook isbn title author copies now =>
    simp only [runCmd, add_book_to_library]
    repeat' split
    all_goals simp [isErr_book]
  | registerUser email name ut now =>
    simp only [runCmd, register_user]
    repeat' split
    all_goals simp [isErr_user]
  | borrowBook uid bid now =>
    simp only [runCmd, borrow_book]
    repeat' split
    all_goals simp [isErr_book]
  | returnBook uid bid now =>
    have h : ∀ r : String × LibState, return_book uid bid now s = .ok r →
        (r.2 = s ∨ isErr r.1 = false) := by
      intro r hr
      unfold return_book at hr
      repeat' split at hr
      all_goals first
        | (cases hr; simp [isErr_book])
        | cases hr
    cases hrb : return_book uid bid now s with
    | ok r =>
      simp only [runCmd, hrb]
      exact h r hrb
    | error e =>
      simp [runCmd, hrb]
  | suspendUser uid reason now =>
    simp only [runCmd, suspend_user]
    repeat' split
    all_goals simp [isErr_user]

/-- Claim C4: whenever a Library Service operation (addBook, registerUser,
borrowBook, returnBook, suspendUser) fails with a domain error, the whole
library state — books, users, borrowings, and the broker queue — is exactly
as before the call; in particular no event is emitted (all-or-nothing per
call). -/
theorem C4_error_is_all_or_nothing (c : Cmd) (s : LibState)
    (h : isErr (runCmd c s).1 = true) : (runCmd c s).2 = s := by
  rcases runCmd_err_frame c s with he | hf
  · exact he
  · rw [hf] at h
    cases h

/-- Witness for C4: a borrow by an unknown user fails with a domain error and
leaves the empty state exactly as it was. -/
theorem C4_error_is_all_or_nothing_witness :
    isErr (runCmd (Cmd.borrowBook 0 0 0) initState).1 = true ∧
      (runCmd (Cmd.borrowBook 0 0 0) initState).2 = initState :=
  ⟨by decide, C4_error_is_all_or_nothing (Cmd.borrowBook 0 0 0) initState (by decide)⟩

/-! ## C5: error precedence of `borrow_book` -/

/-- Modelled from the amended claim's words, as the reference side of a
refinement statement: the domain error `borrowBook` must report, with the
precedence order user-absent, user-inactive, book-absent, no-copy-available,
limit-reached, already-borrowed; `none` when no error applies. -/
def borrowErrorSpec (s : LibState) (uid bid : Nat) : Option String :=
  match alookup s.users uid with
  | none => some "Error: User not found"
  | some user =>
    if user.status ≠ "active" then
      some "Error: User account is not active"
    else
      match alookup s.books bid with
      | none => some "Error: Book not found"
      | some book =>
        if book.available_copies ≤ 0 then
          some "Error: Book is not available for borrowing"
        else if user.borrowing_limit ≤
            (s.borrowings.filter (fun p => isOpenOf uid p.2)).length then
          some ("Error: User has reached borrowing limit of " ++
            toString user.borrowing_limit ++ " books")
        else if (s.borrowings.filter (fun p => isOpenOf uid p.2)).any
            (fun p => p.2.book_id == bid) then
          some "Error: User has already borrowed this book"
        else
          none

/-- `borrow_book` agrees with `borrowErrorSpec` at one input: when an error is
prescribed, exactly that error is returned with the state unchanged; otherwise
the call does not return a domain error. -/
def borrowAgrees (s : LibState) (uid bid : Nat) (now : Int) : Prop :=
  match borrowErrorSpec s uid bid with
  | some m => borrow_book uid bid now s = (m, s)
  | none => isErr (borrow_book uid bid now s).1 = false

/-- Claim C5 (amended): `borrowBook` reports errors with the precedence
user-absent, then user-inactive, then book-absent, then no copy available,
then borrowing limit reached, then book already borrowed by this user — i.e.
the user checks run before the book-existence check, so `NotFoundError` for a
missing book does NOT take precedence over `InactiveUserError`. -/
theorem C5_amended_borrow_error_precedence :
    ∀ (s : LibState) (uid bid : Nat) (now : Int), borrowAgrees s uid bid now := by
  intro s uid bid now
  unfold borrowAgrees
  cases hu : alookup s.users uid with
  | none => simp [borrowErrorSpec, borrow_book, hu]
  | some user =>
    by_cases hst : user.status = "active"
    · cases hbk : alookup s.books bid with
      | none => simp [borrowErrorSpec, borrow_book, hu, hst, hbk]
      | some book =>
        by_cases hav : book.available_copies ≤ 0
        · simp [borrowErrorSpec, borrow_book, hu, hst, hbk, hav]
        · by_cases hlim : user.borrowing_limit ≤
              (s.borrowings.filter (fun p => isOpenOf uid p.2)).length
          · simp [borrowErrorSpec, borrow_book, hu, hst, hbk, hav, hlim]
          · by_cases hdup : (s.borrowings.filter (fun p => isOpenOf uid p.2)).any
                (fun p => p.2.book_id == bid) = true
            · simp [borrowErrorSpec, borrow_book, hu, hst, hbk, hav, hlim, hdup]
            · simp [borrowErrorSpec, borrow_book, hu, hst, hbk, hav, hlim, hdup,
                isErr_book]
    · simp [borrowErrorSpec, borrow_book, hu, hst]

/-- The state after registering one standard user and suspending them; no book
with id 99 exists here. -/
def c5State : LibState :=
  runCmds [Cmd.registerUser "a@b.c" "N" "standard" 0, Cmd.suspendUser 0 "r" 1]
    initState

/-- Counterexample to C5 as stated: with a suspended user and an absent book,
the claim's precedence (`NotFoundError` whenever the book is absent, before
`InactiveUserError`) predicts "Error: Book not found", but the code returns
the inactive-user error. -/
theorem C5_counterexample_inactive_user_beats_missing_book :
    alookup c5State.books 99 = none ∧
      (borrow_book 0 99 5 c5State).1 = "Error: User account is not active" ∧
      (borrow_book 0 99 5 c5State).1 ≠ "Error: Book not found" := by
  decide

/-! ## C9 and C10: `register_user` -/

/-- Claim C9: `registerUser` does not validate `user_type`: with a valid
non-duplicate email and non-blank name, the call succeeds for every string
`ut`, stores a user with `status = "active"` and `borrowing_limit` 5 exactly
when `ut = "premium"` and 3 otherwise, and emits a `UserRegistered` event
whose payload carries `ut` unchanged. -/
theorem C9_register_user_accepts_any_user_type
    (s : LibState) (email name ut : String) (now : Int)
    (hemail : email ≠ "") (hat : pyIn '@' email = true)
    (hname : name ≠ "") (hstrip : pyStrip name ≠ "")
    (hdup : s.users.any (fun p => p.2.email == email) = false) :
    isErr (register_user email name ut now s).1 = false ∧
    (∃ u : User,
      (register_user email name ut now s).2.users = s.users ++ [(s.nextId, u)] ∧
      u.status = "active" ∧ u.user_type = ut ∧
      u.borrowing_limit = (if ut = "premium" then 5 else 3)) ∧
    (∃ e : Event,
      (register_user email name ut now s).2.queue = s.queue ++ [e] ∧
      e.type = "UserRegistered" ∧
      slookup e.payload "user_type" = some (.str ut)) := by
  have hc1 : ¬ (email = "" ∨ ¬ pyIn '@' email = true) := by simp [hemail, hat]
  have hc2 : ¬ (name = "" ∨ pyStrip name = "") := by simp [hname, hstrip]
  simp only [register_user, emit_event, hc1, hc2, hdup, if_false, ite_false]
  exact ⟨isErr_user _, ⟨_, rfl, rfl, rfl, rfl⟩, ⟨_, rfl, rfl, rfl⟩⟩

/-- Witness for C9: registering with the unknown type `"gold"` succeeds and
stores an active user with limit 3. -/
theorem C9_register_user_accepts_any_user_type_witness :
    isErr (register_user "a@b.c" "N" "gold" 0 initState).1 = false ∧
    (∃ u : User,
      (register_user "a@b.c" "N" "gold" 0 initState).2.users =
        initState.users ++ [(initState.nextId, u)] ∧
      u.status = "active" ∧ u.user_type = "gold" ∧
      u.borrowing_limit = (if "gold" = "premium" then 5 else 3)) ∧
    (∃ e : Event,
      (register_user "a@b.c" "N" "gold" 0 initState).2.queue =
        initState.queue ++ [e] ∧
      e.type = "UserRegistered" ∧
      slookup e.payload "user_type" = some (.str "gold")) :=
  C9_register_user_accepts_any_user_type initState "a@b.c" "N" "gold" 0
    (by decide) (by decide) (by decide) (by decide) (by decide)

/-- Claim C10: when the name argument carries surrounding whitespace (so that
stripping changes it), a successful `registerUser` stores the stripped name in
the user record but puts the original, unstripped name into the
`UserRegistered` payload, and the two differ. -/
theorem C10_stored_name_stripped_event_name_not
    (s : LibState) (email name ut : String) (now : Int)
    (hemail : email ≠ "") (hat : pyIn '@' email = true)
    (hname : name ≠ "") (hstrip : pyStrip name ≠ "")
    (hdup : s.users.any (fun p => p.2.email == email) = false)
    (hws : pyStrip name ≠ name) :
    ∃ (u : User) (e : Event),
      (register_user email name ut now s).2.users = s.users ++ [(s.nextId, u)] ∧
      (register_user email name ut now s).2.queue = s.queue ++ [e] ∧
      u.name = pyStrip name ∧
      slookup e.payload "name" = some (.str name) ∧
      u.name ≠ name := by
  have hc1 : ¬ (email = "" ∨ ¬ pyIn '@' email = true) := by simp [hemail, hat]
  have hc2 : ¬ (name = "" ∨ pyStrip name = "") := by simp [hname, hstrip]
  simp only [register_user, emit_event, hc1, hc2, hdup, if_false, ite_false]
  exact ⟨_, _, rfl, rfl, rfl, rfl, hws⟩

/-- Witness for C10: the name `" Alice "` is stored as `"Alice"` while the
event payload keeps `" Alice "`. -/
theorem C10_stored_name_stripped_event_name_not_witness :
    ∃ (u : User) (e : Event),
      (register_user "a@b.c" " Alice " "standard" 0 initState).2.users =
        initState.users ++ [(initState.nextId, u)] ∧
      (register_user "a@b.c" " Alice " "standard" 0 initState).2.queue =
        initState.queue ++ [e] ∧
      u.name = pyStrip " Alice " ∧
      slookup e.payload "name" = some (.str " Alice ") ∧
      u.name ≠ " Alice " :=
  C10_stored_name_stripped_event_name_not initState "a@b.c" " Alice " "standard" 0
    (by decide) (by decide) (by decide) (by decide) (by decide) (by decide)

/-! ## C7: the late fee computed by `return_book` -/

lemma alookup_setAssoc_self {β : Type} (l : List (Nat × β)) (k : Nat) (v : β)
    (h : k ∈ keysOf l) : alookup (setAssoc l k v) k = some v := by
  induction l with
  | nil => cases h
  | cons p rest ih =>
    by_cases hp : p.1 = k
    · simp [setAssoc, alookup, hp]
    · have hk : k ∈ keysOf rest := by
        rcases (by simpa [keysOf] using h) with h1 | h2
        · exact absurd h1.symm hp
        · simpa [keysOf] using h2
      have hrec := ih hk
      simp only [setAssoc, alookup, List.map_cons] at hrec ⊢
      rw [List.find?_cons_of_neg]
      · exact hrec
      · simp [hp]

/-- Modelled from the claim's fee formula, as the reference side of the
comparison: `max(0, days_late) * 0.50` (in cents) where `days_late` is the
floor of the day count between the due date and `now` when `now` is past the
due date, and `0` otherwise. -/
def lateFeeSpec (now due : Int) : Int :=
  max 0 (if due < now then (now - due) / 86400 else 0) * 50

/-- The fee expression of `return_book` equals the claim's formula. -/
lemma late_fee_eq_spec (now due : Int) :
    (if due < now then (daysLate now due : Int) * 50 else 0) = lateFeeSpec now due := by
  unfold lateFeeSpec
  by_cases h : due < now
  · have h0 : (0 : Int) ≤ now - due := by omega
    have hdl : (daysLate now due : Int) = (now - due) / 86400 := by
      unfold daysLate
      rw [Int.natCast_div, Int.toNat_of_nonneg h0]
      norm_num
    have hnn : (0 : Int) ≤ (now - due) / 86400 := Int.ediv_nonneg h0 (by norm_num)
    rw [if_pos h, if_pos h, hdl, max_eq_right hnn]
  · rw [if_neg h, if_neg h]
    simp

/-- Claim C7: for an open borrowing found by `returnBook`, the stored late fee
is `max(0, days_late) * 0.50` dollars (here in cents: `* 50`) with `days_late`
the floored day count past the due date; in particular a return on or before
the due date records fee `0`, and a return exactly 3 days past the due date
records `1.50` dollars (150 cents). -/
theorem C7_late_fee_formula
    (s : LibState) (uid bid : Nat) (now : Int) (bId : Nat) (b : Borrowing)
    (book : Book) (user : User)
    (hf : findOpenBorrowing s uid bid = some (bId, b))
    (hbk : alookup s.books bid = some book)
    (hu : alookup s.users uid = some user) :
    ∃ (msg : String) (s1 : LibState),
      return_book uid bid now s = .ok (msg, s1) ∧
      alookup s1.borrowings bId =
        some { b with returned_date := some now,
                      late_fee := lateFeeSpec now b.due_date } ∧
      (now ≤ b.due_date → lateFeeSpec now b.due_date = 0) ∧
      (now = b.due_date + 3 * 86400 → lateFeeSpec now b.due_date = 150) := by
  have hmem : (bId, b) ∈ s.borrowings := by
    have := List.mem_of_find?_eq_some hf
    exact this
  have hkey : bId ∈ keysOf s.borrowings := by
    simpa [keysOf] using List.mem_map_of_mem Prod.fst hmem
  simp only [return_book, hf, hbk, hu]
  refine ⟨_, _, rfl, ?_, ?_, ?_⟩
  · rw [late_fee_eq_spec now b.due_date]
    exact alookup_setAssoc_self _ _ _ hkey
  · intro hle
    unfold lateFeeSpec
    rw [if_neg (by omega)]
    simp
  · intro heq
    subst heq
    unfold lateFeeSpec
    rw [if_pos (by omega)]
    have h3 : b.due_date + 3 * 86400 - b.due_date = 3 * 86400 := by ring
    rw [h3]
    decide

/-- The state after adding a 2-copy book, registering a user, and borrowing
the book at time 20 (so the due date is `20 + 14*86400`). -/
def c7State : LibState :=
  runCmds [Cmd.addBook "i" "T" "A" 2 0, Cmd.registerUser "a@b.c" "N" "standard" 0,
    Cmd.borrowBook 3 0 20] initState

/-- Witness for C7: returning exactly 3 days past the due date stores a fee of
150 cents. -/
theorem C7_late_fee_formula_witness :
    ∃ (msg : String) (s1 : LibState),
      return_book 3 0 1468820 c7State = .ok (msg, s1) ∧
      alookup s1.borrowings 6 =
        some { user_id := 3, book_id := 0, borrowed_date := 20, due_date := 1209620,
               returned_date := some 1468820,
               late_fee := lateFeeSpec 1468820 1209620 } ∧
      ((1468820 : Int) ≤ 1209620 → lateFeeSpec 1468820 1209620 = 0) ∧
      ((1468820 : Int) = 1209620 + 3 * 86400 → lateFeeSpec 1468820 1209620 = 150) :=
  C7_late_fee_formula c7State 3 0 1468820 6
    { user_id := 3, book_id := 0, borrowed_date := 20, due_date := 1209620,
      returned_date := none, late_fee := 0 }
    { isbn := "i", title := "T", author := "A", total_copies := 2,
      available_copies := 1, added_date := 0 }
    { email := "a@b.c", name := "N", user_type := "standard", status := "active",
      registered_date := 0, borrowing_limit := 3, suspension_reason := none,
      suspended_date := none }
    (by decide) (by decide) (by decide)

/-! ## Association-list lemmas for the C3 invariant -/

lemma alookup_mem {β : Type} {l : List (Nat × β)} {k : Nat} {b : β}
    (h : alookup l k = some b) : (k, b) ∈ l := by
  unfold alookup at h
  cases hf : l.find? (fun p => p.1 == k) with
  | none => rw [hf] at h; cases h
  | some q =>
    rw [hf] at h
    have hq := List.mem_of_find?_eq_some hf
    have hpred := List.find?_some hf
    simp at h
    simp only [beq_iff_eq] at hpred
    have : q = (k, b) := by
      cases q
      simp only [Prod.mk.injEq]
      exact ⟨hpred, h⟩
    rw [this] at hq
    exact hq

lemma mem_keysOf {β : Type} {l : List (Nat × β)} {k : Nat} :
    k ∈ keysOf l ↔ ∃ b, (k, b) ∈ l := by
  unfold keysOf
  constructor
  · intro h
    rcases List.mem_map.mp h with ⟨q, hq, hk⟩
    exact ⟨q.2, by cases q; cases hk; exact hq⟩
  · rintro ⟨b, hb⟩
    exact List.mem_map.mpr ⟨(k, b), hb, rfl⟩

lemma setAssoc_cons {β : Type} (p : Nat × β) (rest : List (Nat × β)) (k : Nat)
    (v : β) :
    setAssoc (p :: rest) k v =
      (if p.1 == k then (k, v) else p) :: setAssoc rest k v := rfl

lemma keysOf_cons {β : Type} (p : Nat × β) (rest : List (Nat × β)) :
    keysOf (p :: rest) = p.1 :: keysOf rest := rfl

lemma setAssoc_of_not_mem {β : Type} {l : List (Nat × β)} {k : Nat} (v : β)
    (h : k ∉ keysOf l) : setAssoc l k v = l := by
  induction l with
  | nil => rfl
  | cons p rest ih =>
    rw [keysOf_cons, List.mem_cons, not_or] at h
    obtain ⟨h1, h2⟩ := h
    rw [setAssoc_cons, if_neg (by simpa using fun he => h1 he.symm), ih h2]

lemma keysOf_setAssoc {β : Type} (l : List (Nat × β)) (k : Nat) (v : β) :
    keysOf (setAssoc l k v) = keysOf l := by
  induction l with
  | nil => rfl
  | cons p rest ih =>
    rw [setAssoc_cons]
    by_cases hp : p.1 = k
    · rw [if_pos (by simpa using hp), keysOf_cons, keysOf_cons, ih, hp]
    · rw [if_neg (by simpa using hp), keysOf_cons, keysOf_cons, ih]

lemma mem_setAssoc_elim {β : Type} {l : List (Nat × β)} {k : Nat} {v : β}
    {p : Nat × β} (h : p ∈ setAssoc l k v) :
    (p ∈ l ∧ p.1 ≠ k) ∨ (p = (k, v) ∧ k ∈ keysOf l) := by
  induction l with
  | nil => cases h
  | cons q rest ih =>
    rw [setAssoc_cons] at h
    rcases List.mem_cons.mp h with h | h
    · by_cases hq : q.1 = k
      · rw [if_pos (by simpa using hq)] at h
        exact Or.inr ⟨h, by rw [keysOf_cons, hq]; exact List.mem_cons_self _ _⟩
      · rw [if_neg (by simpa using hq)] at h
        subst h
        exact Or.inl ⟨List.mem_cons_self _ _, hq⟩
    · rcases ih h with ⟨hm, hne⟩ | ⟨he, hk⟩
      · exact Or.inl ⟨List.mem_cons_of_mem _ hm, hne⟩
      · exact Or.inr ⟨he, by rw [keysOf_cons]; exact List.mem_cons_of_mem _ hk⟩

lemma countP_setAssoc {β : Type} (P : Nat × β → Bool) {l : List (Nat × β)}
    {k : Nat} {b : β} (v : β) (hnd : (keysOf l).Nodup) (hmem : (k, b) ∈ l) :
    (setAssoc l k v).countP P + (if P (k, b) then 1 else 0)
      = l.countP P + (if P (k, v) then 1 else 0) := by
  induction l with
  | nil => cases hmem
  | cons p rest ih =>
    rw [keysOf_cons, List.nodup_cons] at hnd
    obtain ⟨hnotin, hndr⟩ := hnd
    by_cases hp : p.1 = k
    · have hbp : p = (k, b) := by
        rcases List.mem_cons.mp hmem with h | h
        · exact h.symm
        · exfalso
          rw [hp] at hnotin
          exact hnotin (mem_keysOf.mpr ⟨b, h⟩)
      have hknot : k ∉ keysOf rest := by rw [hp] at hnotin; exact hnotin
      have hrest : setAssoc rest k v = rest := setAssoc_of_not_mem v hknot
      subst hbp
      rw [setAssoc_cons, if_pos (by simp), hrest, List.countP_cons, List.countP_cons]
      omega
    · have hmr : (k, b) ∈ rest := by
        rcases List.mem_cons.mp hmem with h | h
        · exact absurd (congrArg Prod.fst h.symm) hp
        · exact h
      have hih := ih hndr hmr
      rw [setAssoc_cons, if_neg (by simpa using hp), List.countP_cons, List.countP_cons]
      omega

/-! ## C3: the `available_copies` invariant -/

lemma keysOf_append {β : Type} (l l' : List (Nat × β)) :
    keysOf (l ++ l') = keysOf l ++ keysOf l' :=
  List.map_append _ _ _

lemma obCount_append (l l' : List (Nat × Borrowing)) (bid : Nat) :
    obCount (l ++ l') bid = obCount l bid + obCount l' bid :=
  List.countP_append _ _ _

lemma findOpen_spec {s : LibState} {uid bid bId : Nat} {b : Borrowing}
    (hf : findOpenBorrowing s uid bid = some (bId, b)) :
    (bId, b) ∈ s.borrowings ∧ b.user_id = uid ∧ b.book_id = bid ∧
      b.returned_date = none := by
  have hmem := List.mem_of_find?_eq_some hf
  have hpred := List.find?_some hf
  simp only [Bool.and_eq_true, beq_iff_eq, Option.isNone_iff_eq_none] at hpred
  exact ⟨hmem, hpred.1.1, hpred.1.2, hpred.2⟩

/-- The state invariant maintained by every library operation: ids are below
the fresh-id counter, the dicts have no duplicate keys, borrowings reference
existing books, and every book's `available_copies` is `total_copies` minus
its open borrowings and is nonnegative. -/
structure Inv (s : LibState) : Prop where
  books_lt : ∀ p ∈ s.books, p.1 < s.nextId
  bors_lt : ∀ p ∈ s.borrowings, p.1 < s.nextId
  books_nd : (keysOf s.books).Nodup
  bors_nd : (keysOf s.borrowings).Nodup
  refint : ∀ p ∈ s.borrowings, p.2.book_id ∈ keysOf s.books
  bal : ∀ p ∈ s.books,
    p.2.available_copies = p.2.total_copies - (obCount s.borrowings p.1 : Int)
  nonneg : ∀ p ∈ s.books, 0 ≤ p.2.available_copies

/-- Changing only users, queue, and (upward) the id counter keeps `Inv`. -/
lemma Inv.frame {s : LibState} (hInv : Inv s) (us : List (Nat × User))
    (q : List Event) (m : Nat) (hm : s.nextId ≤ m) :
    Inv { s with users := us, queue := q, nextId := m } :=
  ⟨fun p hp => lt_of_lt_of_le (hInv.books_lt p hp) hm,
   fun p hp => lt_of_lt_of_le (hInv.bors_lt p hp) hm,
   hInv.books_nd, hInv.bors_nd, hInv.refint, hInv.bal, hInv.nonneg⟩

/-- `Inv` after the success path of `add_book_to_library`. -/
lemma inv_add_shape (s : LibState) (book : Book) (ev : Event) (hInv : Inv s)
    (hbal : book.available_copies = book.total_copies)
    (hpos : 0 ≤ book.available_copies) :
    Inv { s with books := s.books ++ [(s.nextId, book)],
                 queue := s.queue ++ [ev], nextId := s.nextId + 3 } := by
  refine ⟨?_, ?_, ?_, ?_, ?_, ?_, ?_⟩
  · intro p hp
    rcases List.mem_append.mp hp with h | h
    · exact lt_of_lt_of_le (hInv.books_lt p h) (Nat.le_add_right _ _)
    · simp only [List.mem_singleton] at h
      subst h
      show s.nextId < s.nextId + 3
      omega
  · intro p hp
    exact lt_of_lt_of_le (hInv.bors_lt p hp) (Nat.le_add_right _ _)
  · rw [keysOf_append]
    refine List.Nodup.append hInv.books_nd (List.nodup_singleton _) ?_
    intro a ha hb
    rcases mem_keysOf.mp ha with ⟨v, hv⟩
    have hlt := hInv.books_lt (a, v) hv
    simp only [keysOf, List.map_cons, List.map_nil, List.mem_singleton] at hb
    omega
  · exact hInv.bors_nd
  · intro p hp
    rw [keysOf_append]
    exact List.mem_append_left _ (hInv.refint p hp)
  · intro p hp
    rcases List.mem_append.mp hp with h | h
    · exact hInv.bal p h
    · simp only [List.mem_singleton] at h
      subst h
      have hz : obCount s.borrowings s.nextId = 0 := by
        unfold obCount
        rw [List.countP_eq_zero]
        intro q hq
        rcases mem_keysOf.mp (hInv.refint q hq) with ⟨v, hv⟩
        have hlt := hInv.books_lt (q.2.book_id, v) hv
        simp only [Bool.and_eq_true, beq_iff_eq]
        rintro ⟨heq, _⟩
        omega
      show book.available_copies = book.total_copies - (obCount s.borrowings s.nextId : Int)
      rw [hz, hbal]
      simp
  · intro p hp
    rcases List.mem_append.mp hp with h | h
    · exact hInv.nonneg p h
    · simp only [List.mem_singleton] at h
      subst h
      exact hpos

/-- `Inv` after the success path of `borrow_book`. -/
lemma inv_borrow_shape (s : LibState) (bid : Nat) (book : Book) (nb : Borrowing)
    (ev : Event) (hInv : Inv s)
    (hbk : alookup s.books bid = some book)
    (hav : 0 < book.available_copies)
    (hnb_bid : nb.book_id = bid) (hnb_open : nb.returned_date = none) :
    Inv { s with
      borrowings := s.borrowings ++ [(s.nextId, nb)],
      books := setAssoc s.books bid
        { book with available_copies := book.available_copies - 1 },
      queue := s.queue ++ [ev], nextId := s.nextId + 3 } := by
  have hbmem : (bid, book) ∈ s.books := alookup_mem hbk
  have hob : ∀ k, obCount (s.borrowings ++ [(s.nextId, nb)]) k
      = obCount s.borrowings k + (if bid = k then 1 else 0) := by
    intro k
    rw [obCount_append]
    unfold obCount
    simp only [List.countP_cons, List.countP_nil, hnb_bid, hnb_open]
    by_cases hk : bid = k <;> simp [hk]
  refine ⟨?_, ?_, ?_, ?_, ?_, ?_, ?_⟩
  · intro p hp
    rcases mem_setAssoc_elim hp with ⟨h, _⟩ | ⟨he, hk⟩
    · exact lt_of_lt_of_le (hInv.books_lt p h) (Nat.le_add_right _ _)
    · subst he
      rcases mem_keysOf.mp hk with ⟨v, hv⟩
      exact lt_of_lt_of_le (hInv.books_lt (bid, v) hv) (Nat.le_add_right _ _)
  · intro p hp
    rcases List.mem_append.mp hp with h | h
    · exact lt_of_lt_of_le (hInv.bors_lt p h) (Nat.le_add_right _ _)
    · simp only [List.mem_singleton] at h
      subst h
      show s.nextId < s.nextId + 3
      omega
  · rw [keysOf_setAssoc]
    exact hInv.books_nd
  · rw [keysOf_append]
    refine List.Nodup.append hInv.bors_nd (List.nodup_singleton _) ?_
    intro a ha hb
    rcases mem_keysOf.mp ha with ⟨v, hv⟩
    have hlt := hInv.bors_lt (a, v) hv
    simp only [keysOf, List.map_cons, List.map_nil, List.mem_singleton] at hb
    omega
  · intro p hp
    rw [keysOf_setAssoc]
    rcases List.mem_append.mp hp with h | h
    · exact hInv.refint p h
    · simp only [List.mem_singleton] at h
      subst h
      show nb.book_id ∈ keysOf s.books
      rw [hnb_bid]
      exact mem_keysOf.mpr ⟨book, hbmem⟩
  · intro p hp
    rcases mem_setAssoc_elim hp with ⟨h, hne⟩ | ⟨he, _⟩
    · have hbal := hInv.bal p h
      rw [hob p.1, if_neg (fun he => hne he.symm)]
      push_cast
      omega
    · subst he
      have hbal : book.available_copies
          = book.total_copies - (obCount s.borrowings bid : Int) :=
        hInv.bal (bid, book) hbmem
      show book.available_copies - 1
          = book.total_copies - (obCount (s.borrowings ++ [(s.nextId, nb)]) bid : Int)
      rw [hob bid, if_pos rfl]
      push_cast at hbal ⊢
      omega
  · intro p hp
    rcases mem_setAssoc_elim hp with ⟨h, _⟩ | ⟨he, _⟩
    · exact hInv.nonneg p h
    · subst he
      show 0 ≤ book.available_copies - 1
      omega

/-- `Inv` after the success path of `return_book`. -/
lemma inv_return_shape (s : LibState) (uid bid bId : Nat) (b : Borrowing)
    (book : Book) (fee : Int) (now : Int) (ev : Event) (hInv : Inv s)
    (hf : findOpenBorrowing s uid bid = some (bId, b))
    (hbk : alookup s.books bid = some book) :
    Inv { s with
      borrowings := setAssoc s.borrowings bId
        { b with returned_date := some now, late_fee := fee },
      books := setAssoc s.books bid
        { book with available_copies := book.available_copies + 1 },
      queue := s.queue ++ [ev], nextId := s.nextId + 2 } := by
  obtain ⟨hbmem, _, hb_bid, hb_open⟩ := findOpen_spec hf
  have hkmem : (bid, book) ∈ s.books := alookup_mem hbk
  have hob : ∀ k, obCount (setAssoc s.borrowings bId
      { b with returned_date := some now, late_fee := fee }) k
        + (if bid = k then 1 else 0) = obCount s.borrowings k := by
    intro k
    have hcp := countP_setAssoc
      (fun p => p.2.book_id == k && p.2.returned_date.isNone)
      ({ b with returned_date := some now, late_fee := fee }) hInv.bors_nd hbmem
    have e1 : ((fun p : Nat × Borrowing => p.2.book_id == k && p.2.returned_date.isNone)
        (bId, b)) = (bid == k) := by
      simp [hb_bid, hb_open]
    have e2 : ((fun p : Nat × Borrowing => p.2.book_id == k && p.2.returned_date.isNone)
        (bId, { b with returned_date := some now, late_fee := fee })) = false := by
      simp
    rw [e1, e2] at hcp
    unfold obCount
    by_cases hk : bid = k
    · subst hk
      simp only [beq_self_eq_true, if_true, ite_true, Bool.false_eq_true, if_false,
        ite_false] at hcp
      rw [if_pos rfl]
      omega
    · rw [if_neg hk]
      simp only [Bool.false_eq_true, if_false, ite_false,
        if_neg (by simpa using hk : ¬ ((bid == k) = true))] at hcp
      omega
  refine ⟨?_, ?_, ?_, ?_, ?_, ?_, ?_⟩
  · intro p hp
    rcases mem_setAssoc_elim hp with ⟨h, _⟩ | ⟨he, hk⟩
    · exact lt_of_lt_of_le (hInv.books_lt p h) (Nat.le_add_right _ _)
    · subst he
      rcases mem_keysOf.mp hk with ⟨v, hv⟩
      exact lt_of_lt_of_le (hInv.books_lt (bid, v) hv) (Nat.le_add_right _ _)
  · intro p hp
    rcases mem_setAssoc_elim hp with ⟨h, _⟩ | ⟨he, hk⟩
    · exact lt_of_lt_of_le (hInv.bors_lt p h) (Nat.le_add_right _ _)
    · subst he
      rcases mem_keysOf.mp hk with ⟨v, hv⟩
      exact lt_of_lt_of_le (hInv.bors_lt (bId, v) hv) (Nat.le_add_right _ _)
  · rw [keysOf_setAssoc]
    exact hInv.books_nd
  · rw [keysOf_setAssoc]
    exact hInv.bors_nd
  · intro p hp
    rw [keysOf_setAssoc]
    rcases mem_setAssoc_elim hp with ⟨h, _⟩ | ⟨he, _⟩
    · exact hInv.refint p h
    · subst he
      show ({ b with returned_date := some now, late_fee := fee } :
          Borrowing).book_id ∈ keysOf s.books
      simp only
      rw [hb_bid]
      exact mem_keysOf.mpr ⟨book, hkmem⟩
  · intro p hp
    rcases mem_setAssoc_elim hp with ⟨h, hne⟩ | ⟨he, _⟩
    · have hbal := hInv.bal p h
      have hcount := hob p.1
      rw [if_neg (fun he => hne he.symm)] at hcount
      show p.2.available_copies = p.2.total_copies -
          (obCount (setAssoc s.borrowings bId
            { b with returned_date := some now, late_fee := fee }) p.1 : Int)
      push_cast at hbal ⊢
      omega
    · subst he
      have hbal : book.available_copies
          = book.total_copies - (obCount s.borrowings bid : Int) :=
        hInv.bal (bid, book) hkmem
      have hcount := hob bid
      rw [if_pos rfl] at hcount
      show book.available_copies + 1 = book.total_copies -
          (obCount (setAssoc s.borrowings bId
            { b with returned_date := some now, late_fee := fee }) bid : Int)
      push_cast at hbal ⊢
      omega
  · intro p hp
    rcases mem_setAssoc_elim hp with ⟨h, _⟩ | ⟨he, _⟩
    · exact hInv.nonneg p h
    · subst he
      have h0 : 0 ≤ book.available_copies := hInv.nonneg (bid, book) hkmem
      show 0 ≤ book.available_copies + 1
      omega

lemma inv_add_book (isbn title author : String) (copies now : Int) (s : LibState)
    (hInv : Inv s) : Inv (add_book_to_library isbn title author copies now s).2 := by
  unfold add_book_to_library
  by_cases h1 : isbn = "" ∨ title = "" ∨ author = ""
  · rw [if_pos h1]; exact hInv
  · rw [if_neg h1]
    by_cases h2 : copies ≤ 0
    · rw [if_pos h2]; exact hInv
    · rw [if_neg h2]
      by_cases h3 : (s.books.any (fun p => p.2.isbn == isbn)) = true
      · rw [if_pos h3]; exact hInv
      · rw [if_neg h3]
        exact inv_add_shape s _ _ hInv rfl (show (0 : Int) ≤ copies by omega)

lemma inv_register (email nm ut : String) (now : Int) (s : LibState)
    (hInv : Inv s) : Inv (register_user email nm ut now s).2 := by
  unfold register_user
  by_cases h1 : email = "" ∨ ¬ (pyIn '@' email) = true
  · rw [if_pos h1]; exact hInv
  · rw [if_neg h1]
    by_cases h2 : nm = "" ∨ pyStrip nm = ""
    · rw [if_pos h2]; exact hInv
    · rw [if_neg h2]
      by_cases h3 : (s.users.any (fun p => p.2.email == email)) = true
      · rw [if_pos h3]; exact hInv
      · rw [if_neg h3]
        exact hInv.frame _ _ _ (show s.nextId ≤ s.nextId + 1 + 2 by omega)

lemma inv_suspend (uid : Nat) (reason : String) (now : Int) (s : LibState)
    (hInv : Inv s) : Inv (suspend_user uid reason now s).2 := by
  unfold suspend_user
  cases hu : alookup s.users uid with
  | none => exact hInv
  | some user => exact hInv.frame _ _ _ (show s.nextId ≤ s.nextId + 2 by omega)

lemma inv_borrow (uid bid : Nat) (now : Int) (s : LibState)
    (hInv : Inv s) : Inv (borrow_book uid bid now s).2 := by
  simp only [borrow_book]
  cases hu : alookup s.users uid with
  | none => exact hInv
  | some user =>
    dsimp only
    by_cases hst : user.status = "active"
    · rw [if_neg (not_not_intro hst)]
      cases hbk : alookup s.books bid with
      | none => exact hInv
      | some book =>
        dsimp only
        by_cases hav : book.available_copies ≤ 0
        · rw [if_pos hav]; exact hInv
        · rw [if_neg hav]
          by_cases hlim : user.borrowing_limit ≤
              (s.borrowings.filter (fun p => isOpenOf uid p.2)).length
          · rw [if_pos hlim]; exact hInv
          · rw [if_neg hlim]
            by_cases hdup : ((s.borrowings.filter (fun p => isOpenOf uid p.2)).any
                (fun p => p.2.book_id == bid)) = true
            · rw [if_pos hdup]; exact hInv
            · rw [if_neg hdup]
              exact inv_borrow_shape s bid book _ _ hInv hbk (by omega) rfl rfl
    · rw [if_pos hst]; exact hInv

lemma inv_return (uid bid : Nat) (now : Int) (s : LibState) (hInv : Inv s) :
    ∀ r, return_book uid bid now s = .ok r → Inv r.2 := by
  intro r hr
  unfold return_book at hr
  cases hf : findOpenBorrowing s uid bid with
  | none =>
    simp only [hf] at hr
    cases hr
    exact hInv
  | some pr =>
    obtain ⟨bId, b⟩ := pr
    simp only [hf] at hr
    cases hbk : alookup s.books bid <;> cases hu : alookup s.users uid <;>
      simp only [hbk, hu] at hr
    · cases hr
    · cases hr
    · cases hr
    · cases hr
      exact inv_return_shape s uid bid bId b _ _ now _ hInv hf hbk

lemma inv_runCmd (c : Cmd) (s : LibState) (hInv : Inv s) : Inv (runCmd c s).2 := by
  cases c with
  | addBook isbn title author copies now => exact inv_add_book isbn title author copies now s hInv
  | registerUser email nm ut now => exact inv_register email nm ut now s hInv
  | borrowBook uid bid now => exact inv_borrow uid bid now s hInv
  | returnBook uid bid now =>
    cases hrb : return_book uid bid now s with
    | ok r =>
      simp only [runCmd, hrb]
      exact inv_return uid bid now s hInv r hrb
    | error e =>
      simp only [runCmd, hrb]
      exact hInv
  | suspendUser uid reason now => exact inv_suspend uid reason now s hInv

lemma inv_runCmds (cs : List Cmd) (s : LibState) (hInv : Inv s) :
    Inv (runCmds cs s) := by
  induction cs generalizing s with
  | nil => exact hInv
  | cons c rest ih => exact ih _ (inv_runCmd c s hInv)

lemma inv_init : Inv initState := by
  refine ⟨?_, ?_, ?_, ?_, ?_, ?_, ?_⟩ <;> simp [initState, keysOf]

/-- Claim C3: after every sequence of library service calls (addBook,
registerUser, borrowBook, returnBook, suspendUser — successful or failed)
starting from the empty state, every stored book has
`available_copies = total_copies - (number of its open borrowings)` and
`available_copies` is never negative. -/
theorem C3_available_copies_invariant (cs : List Cmd) :
    ∀ p ∈ (runCmds cs initState).books,
      p.2.available_copies = p.2.total_copies
          - (obCount (runCmds cs initState).borrowings p.1 : Int)
        ∧ 0 ≤ p.2.available_copies := by
  intro p hp
  have hInv := inv_runCmds cs initState inv_init
  exact ⟨hInv.bal p hp, hInv.nonneg p hp⟩

/-- The command sequence of the C3 witness: add a 2-copy book, register a
user, borrow the book. -/
def c3Cmds : List Cmd :=
  [Cmd.addBook "i" "T" "A" 2 0, Cmd.registerUser "a@b.c" "N" "standard" 0,
   Cmd.borrowBook 3 0 20]

/-- The book record stored after `c3Cmds`. -/
def c3Book : Book :=
  { isbn := "i", title := "T", author := "A", total_copies := 2,
    available_copies := 1, added_date := 0 }

/-- Witness for C3: after the concrete scenario the invariant holds with one
open borrowing (`available_copies = 2 - 1`). -/
theorem C3_available_copies_invariant_witness :
    (0, c3Book) ∈ (runCmds c3Cmds initState).books ∧
      ((0, c3Book).2.available_copies = (0, c3Book).2.total_copies
          - (obCount (runCmds c3Cmds initState).borrowings (0, c3Book).1 : Int)
        ∧ 0 ≤ (0, c3Book).2.available_copies) :=
  ⟨by decide, C3_available_copies_invariant c3Cmds (0, c3Book) (by decide)⟩

/-! ## C1 and C2: ordering and failure isolation of `process_events` -/

lemma invoke_queue (beh : Beh) (h : HandlerInfo) (e : Event) (st : BrokerSt)
    (hemit : ∀ i e r, beh i e = .ok r → r = []) :
    (invokeHandler beh h e st).queue = st.queue := by
  unfold invokeHandler
  cases hb : beh h.handler e with
  | ok r => simp [hemit _ _ _ hb]
  | error m => rfl

lemma runHandlers_spec (beh : Beh) (e : Event) (hs : List HandlerInfo)
    (st : BrokerSt) (hemit : ∀ i e r, beh i e = .ok r → r = []) :
    (runHandlers beh e hs st).1.queue = st.queue ∧
    (runHandlers beh e hs st).2 = hs.map (fun h => (e, h)) ∧
    (runHandlers beh e hs st).1.failed.map stripTime
      = st.failed.map stripTime ++ hs.filterMap (fun h =>
          match beh h.handler e with
          | .ok _ => none
          | .error msg => some (e, msg, h.service)) := by
  induction hs generalizing st with
  | nil => simp [runHandlers]
  | cons h rest ih =>
    obtain ⟨ihq, iht, ihf⟩ := ih (invokeHandler beh h e st)
    refine ⟨?_, ?_, ?_⟩
    · rw [show (runHandlers beh e (h :: rest) st).1
          = (runHandlers beh e rest (invokeHandler beh h e st)).1 from rfl]
      rw [ihq, invoke_queue beh h e st hemit]
    · rw [show (runHandlers beh e (h :: rest) st).2
          = (e, h) :: (runHandlers beh e rest (invokeHandler beh h e st)).2 from rfl]
      rw [iht, List.map_cons]
    · rw [show (runHandlers beh e (h :: rest) st).1
          = (runHandlers beh e rest (invokeHandler beh h e st)).1 from rfl]
      rw [ihf, List.filterMap_cons]
      unfold invokeHandler
      cases hb : beh h.handler e with
      | ok r => simp
      | error m => simp [stripTime]

lemma process_spec (beh : Beh) (t : HandlerTable) (fuel : Nat) (st : BrokerSt)
    (hemit : ∀ i e r, beh i e = .ok r → r = [])
    (hfuel : st.queue.length ≤ fuel) :
    (process_events beh t fuel st).2
      = st.queue.flatMap (fun e => (handlersFor t e.type).map (fun h => (e, h))) ∧
    (process_events beh t fuel st).1.failed.map stripTime
      = st.failed.map stripTime
          ++ st.queue.flatMap (fun e => expectedFailures beh t e) := by
  induction fuel generalizing st with
  | zero =>
    have hq : st.queue = [] := List.eq_nil_of_length_eq_zero (Nat.le_zero.mp hfuel)
    simp [process_events, hq]
  | succ n ih =>
    cases hq : st.queue with
    | nil => simp [process_events, hq]
    | cons e rest =>
      obtain ⟨hq1, ht1, hf1⟩ :=
        runHandlers_spec beh e (handlersFor t e.type) { st with queue := rest } hemit
      have hlen : (runHandlers beh e (handlersFor t e.type)
          { st with queue := rest }).1.queue.length ≤ n := by
        rw [hq1]
        show rest.length ≤ n
        have hlq : (e :: rest).length = rest.length + 1 := rfl
        rw [hq, hlq] at hfuel
        omega
      obtain ⟨ht2, hf2⟩ := ih _ hlen
      have hstep : process_events beh t (n + 1) st
          = ((process_events beh t n (runHandlers beh e (handlersFor t e.type)
               { st with queue := rest }).1).1,
             (runHandlers beh e (handlersFor t e.type) { st with queue := rest }).2
               ++ (process_events beh t n (runHandlers beh e (handlersFor t e.type)
                    { st with queue := rest }).1).2) := by
        conv =>
          lhs
          rw [process_events]
        rw [hq]
      rw [hstep]
      constructor
      · rw [List.flatMap_cons]
        simp only
        rw [ht1, ht2, hq1]
      · simp only
        rw [hf2, hf1, hq1, List.flatMap_cons]
        simp [expectedFailures, List.append_assoc]

lemma find?_map_register (t : HandlerTable) (ty ty' : String) (h : Nat)
    (sv : String) :
    (t.map (fun p => if p.1 == ty then (p.1, p.2 ++ [⟨h, sv⟩]) else p)).find?
        (fun p => p.1 == ty')
      = (t.find? (fun p => p.1 == ty')).map
          (fun p => if p.1 == ty then (p.1, p.2 ++ [⟨h, sv⟩]) else p) := by
  induction t with
  | nil => rfl
  | cons q rest ih =>
    have hkey : ((if q.1 == ty then (q.1, q.2 ++ [(⟨h, sv⟩ : HandlerInfo)]) else q)).1
        = q.1 := by
      by_cases hq : (q.1 == ty) = true
      · rw [if_pos hq]
      · rw [if_neg hq]
    rw [List.map_cons, List.find?_cons, List.find?_cons]
    by_cases hp : (q.1 == ty') = true
    · simp only [hkey, hp]
      rfl
    · have hp2 : (q.1 == ty') = false := by simpa using hp
      simp only [hkey, hp2]
      exact ih

lemma handlersFor_register (t : HandlerTable) (ty ty' : String) (h : Nat)
    (sv : String) :
    handlersFor (register_event_handler ty h sv t) ty'
      = if ty' = ty then handlersFor t ty' ++ [⟨h, sv⟩] else handlersFor t ty' := by
  unfold register_event_handler handlersFor
  by_cases hex : (t.any (fun p => p.1 == ty)) = true
  · rw [if_pos hex, find?_map_register]
    by_cases hty : ty' = ty
    · subst hty
      cases hf : t.find? (fun p => p.1 == ty') with
      | none =>
        rw [List.find?_eq_none] at hf
        rcases List.any_eq_true.mp hex with ⟨x, hx, hpx⟩
        exact absurd hpx (hf x hx)
      | some q =>
        have hq1 := List.find?_some hf
        simp only [beq_iff_eq] at hq1
        simp [hq1]
    · rw [if_neg hty]
      cases hf : t.find? (fun p => p.1 == ty') with
      | none => simp
      | some q =>
        have hq1 := List.find?_some hf
        simp only [beq_iff_eq] at hq1
        have hq2 : ¬ (q.1 = ty) := by
          rw [hq1]
          exact hty
        simp [hq2]
  · rw [if_neg hex, List.find?_append]
    by_cases hty : ty' = ty
    · subst hty
      have hnone : t.find? (fun p => p.1 == ty') = none := by
        rw [List.find?_eq_none]
        intro x hx hpx
        exact hex (List.any_eq_true.mpr ⟨x, hx, hpx⟩)
      simp [hnone]
    · cases hf : t.find? (fun p => p.1 == ty') with
      | none =>
        have hno : ((ty, [(⟨h, sv⟩ : HandlerInfo)]).1 == ty') = false := by
          simp only [beq_eq_false_iff_ne, ne_eq]
          exact fun he => hty (Eq.symm he)
        simp [hf, List.find?_cons, hno, hty]
      | some q => simp [hf, hty]

lemma handlersFor_applyRegs (regs : List Reg) (ty : String) :
    handlersFor (applyRegs regs) ty
      = (regs.filter (fun r => r.type == ty)).map
          (fun r => ⟨r.handler, r.service⟩) := by
  suffices h : ∀ t, handlersFor (regs.foldl
      (fun t r => register_event_handler r.type r.handler r.service t) t) ty
        = handlersFor t ty ++ (regs.filter (fun r => r.type == ty)).map
            (fun r => ⟨r.handler, r.service⟩) by
    have h0 := h []
    have : handlersFor [] ty = [] := rfl
    rw [this] at h0
    simpa [applyRegs] using h0
  intro t
  induction regs generalizing t with
  | nil => simp
  | cons r rest ih =>
    simp only [List.foldl_cons]
    rw [ih, handlersFor_register]
    by_cases hty : ty = r.type
    · rw [if_pos hty, List.filter_cons, if_pos (by simp [hty]), List.map_cons,
        List.append_assoc]
      rfl
    · rw [if_neg hty, List.filter_cons,
        if_neg (by simp only [beq_iff_eq]; simpa using fun he => hty he.symm)]

/-- Claim C1: one `process_events` call with enough fuel to drain the queue
(the `max_events = None` case) and handlers that emit nothing during the drain
(all emissions happened between the two `process` calls) invokes handlers in
exactly FIFO order over the queued events, and for each event in exactly the
order the handlers were registered — no reordering by type or priority. -/
theorem C1_fifo_and_registration_order (regs : List Reg) (beh : Beh)
    (st : BrokerSt) (fuel : Nat)
    (hemit : ∀ i e r, beh i e = .ok r → r = [])
    (hfuel : st.queue.length ≤ fuel) :
    (process_events beh (applyRegs regs) fuel st).2
      = st.queue.flatMap (fun e =>
          ((regs.filter (fun r => r.type == e.type)).map
            (fun r => (⟨r.handler, r.service⟩ : HandlerInfo))).map
            (fun h => (e, h))) := by
  have h := (process_spec beh (applyRegs regs) fuel st hemit hfuel).1
  rw [h]
  simp only [handlersFor_applyRegs]

/-- Registrations of the C1 witness: two handlers for type `"A"`. -/
def c1Regs : List Reg :=
  [{ type := "A", handler := 1, service := "S1" },
   { type := "A", handler := 2, service := "S2" }]

/-- Initial broker state of the C1 witness: two queued `"A"` events. -/
def c1St : BrokerSt :=
  { queue := [{ event_id := 10, type := "A", payload := [], correlation_id := 0,
                timestamp := 0, retry_count := 0 },
              { event_id := 11, type := "A", payload := [], correlation_id := 1,
                timestamp := 1, retry_count := 0 }],
    failed := [], clock := 0 }

/-- Behaviour of the C1 witness: every handler returns without emitting. -/
def c1Beh : Beh := fun _ _ => .ok []

/-- Witness for C1 at a concrete two-event, two-handler drain. -/
theorem C1_fifo_and_registration_order_witness :
    (process_events c1Beh (applyRegs c1Regs) 2 c1St).2
      = c1St.queue.flatMap (fun e =>
          ((c1Regs.filter (fun r => r.type == e.type)).map
            (fun r => (⟨r.handler, r.service⟩ : HandlerInfo))).map
            (fun h => (e, h))) :=
  C1_fifo_and_registration_order c1Regs c1Beh c1St 2
    (by
      intro i e r h
      have h2 : ([] : List Event) = r := Except.ok.inj h
      exact h2.symm)
    (by decide)

/-- Claim C2: a raising handler stops nothing — every handler of the same and
of later events is still invoked (the trace is the full FIFO × registration
order trace) — and the failure log gains exactly one `FailedEvent` (original
event, error description, failing service; each record also carries its
failure timestamp) per failing invocation, i.e. per (registered handler,
event) pair whose call raises.  `process_events` returns normally, so no
handler exception ever reaches the emitter. -/
theorem C2_handler_failure_isolated (beh : Beh) (t : HandlerTable)
    (st : BrokerSt) (fuel : Nat)
    (hemit : ∀ i e r, beh i e = .ok r → r = [])
    (hfuel : st.queue.length ≤ fuel) :
    (process_events beh t fuel st).2
      = st.queue.flatMap (fun e => (handlersFor t e.type).map (fun h => (e, h))) ∧
    (process_events beh t fuel st).1.failed.map stripTime
      = st.failed.map stripTime
          ++ st.queue.flatMap (fun e => expectedFailures beh t e) :=
  process_spec beh t fuel st hemit hfuel

/-- Behaviour of the C2 witness: handler 1 raises `"boom"`, handler 2 returns. -/
def c2Beh : Beh := fun i _ => if i == 1 then .error "boom" else .ok []

/-- Handler table of the C2 witness: the failing handler registered before a
healthy one for the same type. -/
def c2Table : HandlerTable :=
  [("A", [{ handler := 1, service := "S1" }, { handler := 2, service := "S2" }])]

/-- Initial broker state of the C2 witness: one queued `"A"` event. -/
def c2St : BrokerSt :=
  { queue := [{ event_id := 20, type := "A", payload := [], correlation_id := 2,
                timestamp := 0, retry_count := 0 }],
    failed := [], clock := 0 }

/-- Witness for C2 at a concrete drain with one failing handler. -/
theorem C2_handler_failure_isolated_witness :
    (process_events c2Beh c2Table 1 c2St).2
      = c2St.queue.flatMap (fun e => (handlersFor c2Table e.type).map (fun h => (e, h))) ∧
    (process_events c2Beh c2Table 1 c2St).1.failed.map stripTime
      = c2St.failed.map stripTime
          ++ c2St.queue.flatMap (fun e => expectedFailures c2Beh c2Table e) :=
  C2_handler_failure_isolated c2Beh c2Table c2St 1
    (by
      intro i e r h
      by_cases hi : (i == 1) = true
      · simp [c2Beh, hi] at h
      · simp [c2Beh, hi] at h
        exact h)
    (by decide)

/-! ## C6: `payload.copy()` is a shallow copy -/

/-- The heap before the C6 counterexample: address 0 holds the mutable list
`[1]`, address 1 holds the caller's payload dict `{"xs": <ref 0>}`. -/
def c6St0 : Heap.HState :=
  { heap := [.list [.int 1], .dict [("xs", .ref 0)]], queue := [], nextId := 0 }

/-- After emitting the payload at address 1. -/
def c6St1 : Heap.HState :=
  Heap.emit_event "E" 1 0 c6St0

/-- After the caller then mutates the nested list (`payload["xs"].append(2)`). -/
def c6St2 : Heap.HState :=
  { c6St1 with heap := Heap.listAppend c6St1.heap 0 (.int 2) }

/-- Counterexample to C6 as stated: `payload.copy()` is a shallow copy, so
mutating a nested value of the caller's payload after `emit_event` changes
the data reachable from the queued event's payload — the claim's deep-copy
guarantee fails. -/
theorem C6_counterexample_nested_mutation_leaks :
    Heap.queuedPayloadData c6St2 0 3 ≠ Heap.queuedPayloadData c6St1 0 3 := by
  have e1 : Heap.queuedPayloadData c6St1 0 3
      = .dict [("xs", .list [.int 1])] := rfl
  have e2 : Heap.queuedPayloadData c6St2 0 3
      = .dict [("xs", .list [.int 1, .int 2])] := rfl
  rw [e1, e2]
  intro hcontra
  simp at hcontra

/-- Claim C6 (amended): the envelope holds a *shallow* copy of the payload
taken at emission time: a later top-level mutation of the caller's mapping
(binding a key to a new value) does not change the queued envelope's own
entry list, which stays exactly the entry list seen at emission — but nested
mutable values are shared, not copied (see the counterexample). -/
theorem C6_amended_shallow_copy (st : Heap.HState) (ty : String) (pref : Nat)
    (now : Int) (k : String) (v : Heap.PyV)
    (hpref : pref < st.heap.length) :
    Heap.dictEntries
        (Heap.dictSetKey (Heap.emit_event ty pref now st).heap pref k v)
        st.heap.length
      = Heap.dictEntries st.heap pref := by
  have hne : pref ≠ st.heap.length := by omega
  have hcopy : ((Heap.emit_event ty pref now st).heap).get? st.heap.length
      = some (.dict (Heap.dictEntries st.heap pref)) := by
    show (st.heap ++ [Heap.PyObj.dict (Heap.dictEntries st.heap pref)]).get?
        st.heap.length = _
    exact List.get?_concat_length _ _
  unfold Heap.dictSetKey
  cases hd : ((Heap.emit_event ty pref now st).heap).get? pref with
  | none =>
    unfold Heap.dictEntries
    rw [hcopy]
    rfl
  | some obj =>
    cases obj with
    | dict es =>
      unfold Heap.dictEntries
      rw [List.get?_set_ne _ _ hne, hcopy]
      rfl
    | list vs =>
      unfold Heap.dictEntries
      rw [hcopy]
      rfl

/-- Witness for C6 (amended): rebinding key `"a"` of the caller's dict after
emission leaves the queued copy's entries unchanged. -/
theorem C6_amended_shallow_copy_witness :
    Heap.dictEntries
        (Heap.dictSetKey
          (Heap.emit_event "E" 0 0
            { heap := [.dict [("a", .int 1)]], queue := [], nextId := 0 }).heap
          0 "a" (.int 2))
        ([Heap.PyObj.dict [("a", Heap.PyV.int 1)]].length)
      = Heap.dictEntries [Heap.PyObj.dict [("a", Heap.PyV.int 1)]] 0 :=
  C6_amended_shallow_copy
    { heap := [.dict [("a", .int 1)]], queue := [], nextId := 0 }
    "E" 0 0 "a" (.int 2) (by decide)

/-! ## C8: idempotence of `get_audit_trail` and `generate_usage_report` -/

/-- The analytics state of the C8 counterexample (its content is irrelevant:
only `generated_at` differs between the two calls). -/
def c8Db : AnalyticsDB :=
  { events := [], book_popularity := [] }

/-- Counterexample to C8 as stated: two `generate_usage_report` calls with
identical date arguments and an unchanged analytics state return different
reports whenever the wall clock advanced between the calls, because the
report embeds `generated_at = datetime.now()`. -/
theorem C8_counterexample_generated_at_differs :
    generate_usage_report 0 10 c8Db 5 ≠ generate_usage_report 0 10 c8Db 6 := by
  decide

/-- Claim C8 (amended): with no intervening mutation, `get_audit_trail` is
fully deterministic in the audit state and its arguments (the clock plays no
part in it), and two `generate_usage_report` calls with the same dates and
analytics state agree on every field except the `generated_at` stamp, which
records each call's own clock reading. -/
theorem C8_amended_idempotent_up_to_timestamp (db : AuditDB) (adb : AnalyticsDB)
    (ety : String) (eid : PVal) (sd ed t1 t2 : Int) :
    get_audit_trail ety eid db = get_audit_trail ety eid db ∧
    reportData (generate_usage_report sd ed adb t1)
      = reportData (generate_usage_report sd ed adb t2) :=
  ⟨rfl, rfl⟩

end LibNotif

